import Mathlib

/-!  Shallow embedding of the decoder-only Transformer forward core of
     posts/transformers/index.ipynb: the attention head, multi-head attention,
     feed-forward and transformer blocks, the text-generation model forward
     pass and the autoregressive generation loop.  Tensor entries are real
     numbers; every dropout layer is the identity (inference mode, which is
     what all the verified properties are about).  The batch dimension is
     elementwise, so matrices carry a single sequence of length T. -/

namespace Transformer

/-- PyTorch nn.Linear(dIn, dOut, bias=False): the weight has shape
    (dOut, dIn) and the layer computes x @ weight.T. -/
noncomputable def linearNoBias {T dIn dOut : ℕ} (weight : Matrix (Fin dOut) (Fin dIn) ℝ)
    (x : Matrix (Fin T) (Fin dIn) ℝ) : Matrix (Fin T) (Fin dOut) ℝ :=
  x * weight.transpose

/-- PyTorch nn.Linear(dIn, dOut) with bias: x @ weight.T + bias. -/
noncomputable def linearB {T dIn dOut : ℕ} (weight : Matrix (Fin dOut) (Fin dIn) ℝ)
    (bias : Fin dOut → ℝ) (x : Matrix (Fin T) (Fin dIn) ℝ) : Matrix (Fin T) (Fin dOut) ℝ :=
  Matrix.of fun t j => (x * weight.transpose) t j + bias j

/-- wei.masked_fill(tril == 0, -inf) followed by F.softmax(wei, dim=-1), in
    exact real arithmetic.  tril is torch.tril(torch.ones(seq_len, seq_len))
    sliced to the first T rows and columns (defined for T at most seq_len),
    so entry (i, j) is masked exactly when j > i; a masked entry contributes
    exp(-inf) = 0, and each unmasked entry exp(S i j) is normalized by the
    sum of the exponentials of the unmasked entries of row i.  (F.softmax
    subtracts the row maximum before exponentiating; in exact arithmetic
    that factor cancels, so it is omitted here.)  Dropout on the normalized
    weights is the identity at inference. -/
noncomputable def maskedSoftmax {T : ℕ} (S : Matrix (Fin T) (Fin T) ℝ) :
    Matrix (Fin T) (Fin T) ℝ :=
  Matrix.of fun i j =>
    if (j : ℕ) ≤ (i : ℕ) then
      Real.exp (S i j) /
        ∑ j' ∈ Finset.univ.filter (fun j' : Fin T => (j' : ℕ) ≤ (i : ℕ)), Real.exp (S i j')
    else 0

/-- class Head(nn.Module): the parameters of one self-attention head.  Each
    field is the weight of an nn.Linear(d_model, head_size, bias=False),
    stored PyTorch-style with shape (head_size, d_model). -/
structure Head (dModel headSize : ℕ) where
  key : Matrix (Fin headSize) (Fin dModel) ℝ
  query : Matrix (Fin headSize) (Fin dModel) ℝ
  value : Matrix (Fin headSize) (Fin dModel) ℝ

/-- The unnormalized scores of Head.forward:
    wei = q @ k.transpose(-2,-1) * d_model ** -0.5, where the method unpacks
    batch_size, seq_len, d_model = x.shape.  The scale is therefore the
    reciprocal square root of the INPUT feature dimension d_model (the last
    dimension of x), not of head_size. -/
noncomputable def Head.scores {T dModel headSize : ℕ} (h : Head dModel headSize)
    (x : Matrix (Fin T) (Fin dModel) ℝ) : Matrix (Fin T) (Fin T) ℝ :=
  (Real.sqrt (dModel : ℝ))⁻¹ • (linearNoBias h.query x * (linearNoBias h.key x).transpose)

/-- The normalized attention weights of Head.forward: mask then softmax
    (dropout is the identity at inference). -/
noncomputable def Head.wei {T dModel headSize : ℕ} (h : Head dModel headSize)
    (x : Matrix (Fin T) (Fin dModel) ℝ) : Matrix (Fin T) (Fin T) ℝ :=
  maskedSoftmax (Head.scores h x)

/-- Head.forward: out = wei @ v with v = self.value(x). -/
noncomputable def Head.forward {T dModel headSize : ℕ} (h : Head dModel headSize)
    (x : Matrix (Fin T) (Fin dModel) ℝ) : Matrix (Fin T) (Fin headSize) ℝ :=
  Head.wei h x * linearNoBias h.value x

/-- Modelled from the spec: the score formula the spec states for
    AttentionHead, S = Q Kᵗ * head_size ^ (-0.5), i.e. scaled by the
    reciprocal square root of the per-head projection dimension head_size.
    Kept for comparison with Head.scores, which is what the code computes. -/
noncomputable def specHeadScores {T dModel headSize : ℕ} (h : Head dModel headSize)
    (x : Matrix (Fin T) (Fin dModel) ℝ) : Matrix (Fin T) (Fin T) ℝ :=
  (Real.sqrt (headSize : ℝ))⁻¹ • (linearNoBias h.query x * (linearNoBias h.key x).transpose)

/-- class MultiHeadAttention(nn.Module): num_heads independent heads, an
    output projection self.proj = nn.Linear(d_model, d_model), and a dropout
    (identity at inference). -/
structure MultiHeadAttention (nHead dModel headSize : ℕ) where
  heads : Fin nHead → Head dModel headSize
  projW : Matrix (Fin dModel) (Fin dModel) ℝ
  projB : Fin dModel → ℝ

/-- torch.cat([h(x) for h in self.heads], dim=-1): feature column j of the
    concatenation comes from head number j / headSize, at its inner column
    j % headSize. -/
noncomputable def MultiHeadAttention.concat {T nHead dModel headSize : ℕ}
    (m : MultiHeadAttention nHead dModel headSize) (x : Matrix (Fin T) (Fin dModel) ℝ) :
    Matrix (Fin T) (Fin (nHead * headSize)) ℝ :=
  Matrix.of fun t j =>
    have hpos : 0 < headSize := Nat.pos_of_ne_zero fun h0 => absurd j.isLt (by simp [h0])
    Head.forward (m.heads ⟨(j : ℕ) / headSize, (Nat.div_lt_iff_lt_mul hpos).mpr j.isLt⟩)
      x t ⟨(j : ℕ) % headSize, Nat.mod_lt _ hpos⟩

/-- MultiHeadAttention.forward in the case where the concatenation width
    nHead * headSize matches the in-features d_model of self.proj, so the
    projection applies: out = self.proj(torch.cat(...)); the trailing dropout
    is the identity at inference. -/
noncomputable def MultiHeadAttention.forwardT {T nHead dModel headSize : ℕ}
    (hcfg : nHead * headSize = dModel) (m : MultiHeadAttention nHead dModel headSize)
    (x : Matrix (Fin T) (Fin dModel) ℝ) : Matrix (Fin T) (Fin dModel) ℝ :=
  linearB m.projW m.projB
    (Matrix.of fun t j => MultiHeadAttention.concat m x t (finCongr hcfg.symm j))

/-- MultiHeadAttention.forward with the dimension check PyTorch performs at
    the projection: applying nn.Linear(d_model, d_model) to an input whose
    last dimension is nHead * headSize different from d_model raises a
    RuntimeError, modelled as none. -/
noncomputable def MultiHeadAttention.forwardChecked {T nHead dModel headSize : ℕ}
    (m : MultiHeadAttention nHead dModel headSize) (x : Matrix (Fin T) (Fin dModel) ℝ) :
    Option (Matrix (Fin T) (Fin dModel) ℝ) :=
  if hcfg : nHead * headSize = dModel then some (MultiHeadAttention.forwardT hcfg m x)
  else none

/-- Entrywise ReLU, nn.ReLU(). -/
noncomputable def relu {T d : ℕ} (x : Matrix (Fin T) (Fin d) ℝ) : Matrix (Fin T) (Fin d) ℝ :=
  Matrix.of fun t j => max (x t j) 0

/-- class FeedFoward(nn.Module) (name as in the source): parameters of
    nn.Linear(d_model, 4 * d_model) and nn.Linear(4 * d_model, d_model). -/
structure FeedFoward (dModel : ℕ) where
  w1 : Matrix (Fin (4 * dModel)) (Fin dModel) ℝ
  b1 : Fin (4 * dModel) → ℝ
  w2 : Matrix (Fin dModel) (Fin (4 * dModel)) ℝ
  b2 : Fin dModel → ℝ

/-- FeedFoward.forward: Linear, ReLU, Linear; the trailing nn.Dropout is the
    identity at inference. -/
noncomputable def FeedFoward.forward {T dModel : ℕ} (f : FeedFoward dModel)
    (x : Matrix (Fin T) (Fin dModel) ℝ) : Matrix (Fin T) (Fin dModel) ℝ :=
  linearB f.w2 f.b2 (relu (linearB f.w1 f.b1 x))

/-- nn.LayerNorm(d): learned elementwise affine parameters (weight gamma,
    bias beta). -/
structure LayerNorm (d : ℕ) where
  gamma : Fin d → ℝ
  beta : Fin d → ℝ

/-- nn.LayerNorm forward over the last dimension: per row, subtract the mean,
    divide by sqrt(biased variance + eps) with the default eps = 1e-5, then
    apply the elementwise affine parameters. -/
noncomputable def LayerNorm.forward {T d : ℕ} (ln : LayerNorm d)
    (x : Matrix (Fin T) (Fin d) ℝ) : Matrix (Fin T) (Fin d) ℝ :=
  Matrix.of fun t j =>
    let mu : ℝ := (∑ j', x t j') / (d : ℝ)
    let sigma2 : ℝ := (∑ j', (x t j' - mu) ^ 2) / (d : ℝ)
    (x t j - mu) / Real.sqrt (sigma2 + 1 / 100000) * ln.gamma j + ln.beta j

/-- class Block(nn.Module): self.sa, self.ffwd, self.ln1, self.ln2. -/
structure Block (dModel nHead headSize : ℕ) where
  sa : MultiHeadAttention nHead dModel headSize
  ffwd : FeedFoward dModel
  ln1 : LayerNorm dModel
  ln2 : LayerNorm dModel

/-- The head_size = d_model // n_head line of Block.__init__: Python floor
    division, computed with no divisibility check and no exception. -/
def Block.headSizeOf (dModel nHead : ℕ) : ℕ := dModel / nHead

/-- Block.forward:
      x = x + self.sa(self.ln1(x))
      x = x + self.ffwd(self.ln2(x))
      return x
    The hypothesis hcfg is the dimension agreement the projection inside
    self.sa needs in order not to raise (see forwardChecked). -/
noncomputable def Block.forward {T dModel nHead headSize : ℕ}
    (hcfg : nHead * headSize = dModel) (b : Block dModel nHead headSize)
    (x : Matrix (Fin T) (Fin dModel) ℝ) : Matrix (Fin T) (Fin dModel) ℝ :=
  let x1 := x + MultiHeadAttention.forwardT hcfg b.sa (LayerNorm.forward b.ln1 x)
  let x2 := x1 + FeedFoward.forward b.ffwd (LayerNorm.forward b.ln2 x1)
  x2

/-- Global configuration constants of the notebook. -/
def vocab_size : ℕ := 12731

/-- seq_len = 128. -/
def seq_len : ℕ := 128

/-- d_model = 512. -/
def d_model : ℕ := 512

/-- n_head = 6. -/
def n_head : ℕ := 6

/-- n_layer = 8. -/
def n_layer : ℕ := 8

/-- class TextGenerationModel(nn.Module): embedding tables, the block stack,
    the final layer norm and the language-model head. -/
structure TextGenerationModel (vocabSize seqLen dModel nHead headSize nLayer : ℕ) where
  token_embedding_table : Matrix (Fin vocabSize) (Fin dModel) ℝ
  position_embedding_table : Matrix (Fin seqLen) (Fin dModel) ℝ
  blocks : Fin nLayer → Block dModel nHead headSize
  ln_f : LayerNorm dModel
  lm_headW : Matrix (Fin vocabSize) (Fin dModel) ℝ
  lm_headB : Fin vocabSize → ℝ

/-- The logits of TextGenerationModel.forward before the targets branch:
    token embedding lookup plus positional embedding for positions 0..T-1
    (defined only for T at most seq_len, the size of the position table),
    the sequential block stack, ln_f and lm_head, per batch element. -/
noncomputable def TextGenerationModel.logits
    {vocabSize seqLen dModel nHead headSize nLayer B T : ℕ}
    (hcfg : nHead * headSize = dModel)
    (m : TextGenerationModel vocabSize seqLen dModel nHead headSize nLayer)
    (hT : T ≤ seqLen) (idx : Fin B → Fin T → Fin vocabSize) :
    Fin B → Matrix (Fin T) (Fin vocabSize) ℝ :=
  fun b =>
    let x : Matrix (Fin T) (Fin dModel) ℝ :=
      Matrix.of fun t d =>
        m.token_embedding_table (idx b t) d +
          m.position_embedding_table ⟨(t : ℕ), lt_of_lt_of_le t.isLt hT⟩ d
    let xB := (List.finRange nLayer).foldl
      (fun acc l => Block.forward hcfg (m.blocks l) acc) x
    linearB m.lm_headW m.lm_headB (LayerNorm.forward m.ln_f xB)

/-- tensor.view(B*T, ...): flat row n of the reshaped tensor is row n % T of
    batch element n / T. -/
def flat2 {B T : ℕ} {α : Type} (f : Fin B → Fin T → α) (n : Fin (B * T)) : α :=
  have hT : 0 < T := Nat.pos_of_ne_zero fun h0 => absurd n.isLt (by simp [h0])
  f ⟨(n : ℕ) / T, (Nat.div_lt_iff_lt_mul hT).mpr n.isLt⟩ ⟨(n : ℕ) % T, Nat.mod_lt _ hT⟩

/-- F.cross_entropy(logits, targets) for a (N, V) logit matrix and N target
    class indices: the mean over rows of log-sum-exp minus the logit of the
    target class. -/
noncomputable def crossEntropy {N V : ℕ} (logits : Fin N → Fin V → ℝ)
    (targets : Fin N → Fin V) : ℝ :=
  (∑ n, (Real.log (∑ j, Real.exp (logits n j)) - logits n (targets n))) / (N : ℝ)

/-- The two shapes TextGenerationModel.forward can return: without targets,
    logits of shape (B, T, vocab) and loss None; with targets, logits
    reshaped to (B*T, vocab) together with the scalar loss. -/
inductive ForwardResult (B T vocabSize : ℕ) : Type where
  | inference (logits : Fin B → Matrix (Fin T) (Fin vocabSize) ℝ)
  | training (logits : Fin (B * T) → Fin vocabSize → ℝ) (loss : ℝ)

/-- TextGenerationModel.forward(idx, targets): compute the logits; if targets
    is None return them with loss None, otherwise view logits and targets as
    (B*T, vocab) and (B*T,) and return the reshaped logits with the
    cross-entropy loss. -/
noncomputable def TextGenerationModel.forward
    {vocabSize seqLen dModel nHead headSize nLayer B T : ℕ}
    (hcfg : nHead * headSize = dModel)
    (m : TextGenerationModel vocabSize seqLen dModel nHead headSize nLayer)
    (hT : T ≤ seqLen) (idx : Fin B → Fin T → Fin vocabSize)
    (targets : Option (Fin B → Fin T → Fin vocabSize)) : ForwardResult B T vocabSize :=
  let lg := TextGenerationModel.logits hcfg m hT idx
  match targets with
  | none => ForwardResult.inference lg
  | some tg => ForwardResult.training (flat2 lg) (crossEntropy (flat2 lg) (flat2 tg))

/-- idx_cond = idx[:, -seq_len:]: the last min(seq_len, length) tokens of the
    sequence; Python slicing with -0 keeps the whole list, hence the guard. -/
def idxCond (seqLen : ℕ) (idx : List ℕ) : List ℕ :=
  if seqLen = 0 then idx else idx.drop (idx.length - seqLen)

/-- TextGenerationModel.generate(idx, max_new_tokens), recursion on the
    remaining iteration count of "for _ in range(max_new_tokens)".  The body
    truncates to idx_cond, runs the model on it, keeps the last time step,
    softmaxes and samples one token with torch.multinomial(probs, 1), then
    appends it; next abstracts the composite model-plus-sampling step (a
    function of the truncated context only) and the loop structure is what
    is embedded.  There is no early-stopping test of any kind: the sampled
    value, end-of-sequence id or not, is appended and the loop continues. -/
def TextGenerationModel.generate (seqLen : ℕ) (next : List ℕ → ℕ) :
    ℕ → List ℕ → List ℕ
  | 0, idx => idx
  | k + 1, idx =>
      TextGenerationModel.generate seqLen next k (idx ++ [next (idxCond seqLen idx)])

/-- The successive inputs the generation loop passes to the model forward
    (the idx_cond value of every iteration, in order). -/
def generateTrace (seqLen : ℕ) (next : List ℕ → ℕ) : ℕ → List ℕ → List (List ℕ)
  | 0, _ => []
  | k + 1, idx =>
      idxCond seqLen idx ::
        generateTrace seqLen next k (idx ++ [next (idxCond seqLen idx)])

/-- generate with the random source explicit: rand is the stream of draws of
    the seeded random source, one draw consumed per loop iteration, and
    next cond draw is the deterministic model-plus-multinomial step given the
    draw (torch.multinomial is a deterministic function of the probability
    vector and the generator state). -/
def generateRand (seqLen : ℕ) (next : List ℕ → ℕ → ℕ) :
    (ℕ → ℕ) → ℕ → List ℕ → List ℕ
  | _, 0, idx => idx
  | rand, k + 1, idx =>
      generateRand seqLen next (fun i => rand (i + 1)) k
        (idx ++ [next (idxCond seqLen idx) (rand 0)])

/-- Concrete one-dimensional head with zero weights, for witnesses. -/
noncomputable def cHead1 : Head 1 1 := ⟨0, 0, 0⟩

/-- Concrete input for the scaling bug: a single token (T = 1) with
    d_model = 2, hidden state row (1, 0). -/
noncomputable def cX : Matrix (Fin 1) (Fin 2) ℝ :=
  Matrix.of fun _ a => if a = 0 then 1 else 0

/-- Concrete head for the scaling bug: d_model = 2, head_size = 1, all three
    projection weights equal to the row (1, 0). -/
noncomputable def cH : Head 2 1 :=
  ⟨Matrix.of fun _ a => if a = 0 then 1 else 0,
   Matrix.of fun _ a => if a = 0 then 1 else 0,
   Matrix.of fun _ a => if a = 0 then 1 else 0⟩

/-- Multi-head attention with the notebook configuration d_model = 512,
    n_head = 6 and the head size Block.__init__ computes, zero weights. -/
noncomputable def mZero : MultiHeadAttention n_head d_model (Block.headSizeOf d_model n_head) :=
  ⟨fun _ => ⟨0, 0, 0⟩, 0, 0⟩

/-- Zero-weight multi-head attention with n_head = 2, d_model = 4 (a
    divisible configuration). -/
noncomputable def cM24 : MultiHeadAttention 2 4 (Block.headSizeOf 4 2) :=
  ⟨fun _ => ⟨0, 0, 0⟩, 0, 0⟩

/-- Zero-weight multi-head attention with n_head = 2, d_model = 5 (a
    non-divisible configuration). -/
noncomputable def cM25 : MultiHeadAttention 2 5 (Block.headSizeOf 5 2) :=
  ⟨fun _ => ⟨0, 0, 0⟩, 0, 0⟩

/-- Zero-weight transformer block with d_model = 2, n_head = 2,
    head_size = 1. -/
noncomputable def cB8 : Block 2 2 1 :=
  ⟨⟨fun _ => ⟨0, 0, 0⟩, 0, 0⟩, ⟨0, 0, 0, 0⟩, ⟨0, 0⟩, ⟨0, 0⟩⟩

/-- Zero-weight block for the model witness. -/
noncomputable def cB10 : Block 2 2 1 :=
  ⟨⟨fun _ => ⟨0, 0, 0⟩, 0, 0⟩, ⟨0, 0, 0, 0⟩, ⟨0, 0⟩, ⟨0, 0⟩⟩

/-- Zero-weight text generation model with vocab 1, seq_len 1, d_model 2,
    n_head 2, head_size 1, n_layer 1. -/
noncomputable def cModel : TextGenerationModel 1 1 2 2 1 1 :=
  ⟨0, 0, fun _ => cB10, ⟨0, 0⟩, 0, 0⟩

/-- Concrete batch of token indices for the model witness. -/
def cIdx : Fin 1 → Fin 1 → Fin 1 := fun _ _ => 0

/-! ## Helper lemmas -/

/-- The generation loop only ever appends: its result extends the seed. -/
theorem generate_append :
    ∀ (s : ℕ) (next : List ℕ → ℕ) (k : ℕ) (idx : List ℕ),
      ∃ r : List ℕ, TextGenerationModel.generate s next k idx = idx ++ r := by
  intro s next k
  induction k with
  | zero => intro idx; exact ⟨[], by simp [TextGenerationModel.generate]⟩
  | succ k ih =>
      intro idx
      obtain ⟨r, hr⟩ := ih (idx ++ [next (idxCond s idx)])
      refine ⟨[next (idxCond s idx)] ++ r, ?_⟩
      simp only [TextGenerationModel.generate]
      rw [hr, List.append_assoc]

/-- Reshaping (B, T, ...) to (B*T, ...): flat row b*T + t is row t of batch
    element b. -/
theorem flat2_apply {B T : ℕ} {α : Type} (f : Fin B → Fin T → α) (b : Fin B) (t : Fin T)
    (hn : (b : ℕ) * T + (t : ℕ) < B * T) :
    flat2 f ⟨(b : ℕ) * T + (t : ℕ), hn⟩ = f b t := by
  have hT : 0 < T := t.pos
  have h1 : ((b : ℕ) * T + (t : ℕ)) / T = (b : ℕ) := by
    rw [Nat.mul_comm (b : ℕ) T, Nat.mul_add_div hT, Nat.div_eq_of_lt t.isLt, Nat.add_zero]
  have h2 : ((b : ℕ) * T + (t : ℕ)) % T = (t : ℕ) := by
    rw [Nat.mul_comm (b : ℕ) T, Nat.mul_add_mod, Nat.mod_eq_of_lt t.isLt]
  simp only [flat2, h1, h2, Fin.eta]

/-! ## Claims -/

/-- Claim C1: for every input of length T (1 <= T <= seq_len, T >= 1 being
    forced by the row index) and every head, the normalized score matrix of
    Head.forward at inference (dropout identity) is zero at every entry
    strictly above the diagonal, and every row sums to exactly 1. -/
theorem head_wei_causal_rows :
    ∀ (T seqLen dModel headSize : ℕ), T ≤ seqLen →
      ∀ (h : Head dModel headSize) (x : Matrix (Fin T) (Fin dModel) ℝ) (i : Fin T),
        (∀ j : Fin T, (i : ℕ) < (j : ℕ) → Head.wei h x i j = 0) ∧
          (∑ j, Head.wei h x i j = 1) := by
  intro T seqLen dModel headSize hTs h x i
  constructor
  · intro j hij
    simp only [Head.wei, maskedSoftmax, Matrix.of_apply]
    rw [if_neg (by omega)]
  · have hD : 0 < ∑ j' ∈ Finset.univ.filter (fun j' : Fin T => (j' : ℕ) ≤ (i : ℕ)),
        Real.exp (Head.scores h x i j') :=
      Finset.sum_pos (fun j _ => Real.exp_pos _)
        ⟨i, Finset.mem_filter.mpr ⟨Finset.mem_univ i, le_refl _⟩⟩
    simp only [Head.wei, maskedSoftmax, Matrix.of_apply]
    rw [← Finset.sum_filter, ← Finset.sum_div, div_self hD.ne']

/-- Witness for C1 at T = 2, i = 1, with a concrete zero-weight head. -/
theorem head_wei_causal_rows_witness :
    (2 : ℕ) ≤ 2 ∧ ∑ j, Head.wei cHead1 (0 : Matrix (Fin 2) (Fin 1) ℝ) 1 j = 1 :=
  ⟨by norm_num, (head_wei_causal_rows 2 2 1 1 (by norm_num) cHead1 0 1).2⟩

/-- Claim C2 (code bug): Head.forward scales the raw scores by the reciprocal
    square root of the input feature dimension d_model, unpacked from x.shape
    in the first line of the method, not by head_size ^ (-0.5) as the claim
    and the notebook's own attention formula (scaling by the key dimension
    d_k) state.  At the concrete input cH, cX (d_model = 2, head_size = 1,
    where q = k = 1), the code yields (sqrt 2)⁻¹ while the documented formula
    yields (sqrt 1)⁻¹ = 1, and the two differ. -/
theorem head_scores_scale_bug :
    Head.scores cH cX 0 0 = (Real.sqrt 2)⁻¹ ∧
      specHeadScores cH cX 0 0 = 1 ∧
      Head.scores cH cX 0 0 ≠ specHeadScores cH cX 0 0 := by
  have hq : linearNoBias cH.query cX 0 0 = 1 := by
    simp [linearNoBias, cH, cX, Matrix.mul_apply, Fin.sum_univ_two, Matrix.transpose_apply]
  have hk : linearNoBias cH.key cX 0 0 = 1 := by
    simp [linearNoBias, cH, cX, Matrix.mul_apply, Fin.sum_univ_two, Matrix.transpose_apply]
  have h1 : Head.scores cH cX 0 0 = (Real.sqrt 2)⁻¹ := by
    simp only [Head.scores, Matrix.smul_apply, smul_eq_mul, Matrix.mul_apply,
      Matrix.transpose_apply, Fin.sum_univ_one, hq, hk, Nat.cast_ofNat, mul_one]
  have h2 : specHeadScores cH cX 0 0 = 1 := by
    simp only [specHeadScores, Matrix.smul_apply, smul_eq_mul, Matrix.mul_apply,
      Matrix.transpose_apply, Fin.sum_univ_one, hq, hk, Nat.cast_one, Real.sqrt_one,
      inv_one, mul_one]
  have hlt : 1 < Real.sqrt 2 := by
    have h0 : Real.sqrt 1 < Real.sqrt 2 := Real.sqrt_lt_sqrt (by norm_num) (by norm_num)
    simpa [Real.sqrt_one] using h0
  refine ⟨h1, h2, ?_⟩
  rw [h1, h2]
  intro heq
  rw [inv_eq_one] at heq
  exact absurd heq hlt.ne'

/-- Claim C3 counterexample: under the notebook configuration d_model = 512,
    n_head = 6, the head size computed by Block.__init__ is 512 / 6 = 85, the
    per-head outputs concatenate to 510 features, not d_model = 512, and
    MultiHeadAttention.forward fails at the output projection instead of
    returning a (T, d_model) output. -/
theorem mha_forward_config_cex :
    n_head * Block.headSizeOf d_model n_head ≠ d_model ∧
      MultiHeadAttention.forwardChecked mZero (0 : Matrix (Fin 1) (Fin d_model) ℝ) = none := by
  refine ⟨by decide, ?_⟩
  simp only [MultiHeadAttention.forwardChecked]
  rw [dif_neg (by decide)]

/-- Claim C3 (amended): whenever n_head divides d_model — which the stated
    configuration d_model = 512, n_head = 6 violates — the n_head per-head
    outputs of width head_size = d_model / n_head concatenate back to exactly
    d_model features, and MultiHeadAttention.forward succeeds, returning the
    projected output of shape (T, d_model). -/
theorem mha_forward_divisible :
    ∀ (T nHead dModel : ℕ) (hd : nHead ∣ dModel)
      (m : MultiHeadAttention nHead dModel (Block.headSizeOf dModel nHead))
      (x : Matrix (Fin T) (Fin dModel) ℝ),
      nHead * Block.headSizeOf dModel nHead = dModel ∧
        MultiHeadAttention.forwardChecked m x =
          some (MultiHeadAttention.forwardT (Nat.mul_div_cancel' hd) m x) := by
  intro T nHead dModel hd m x
  have hcfg : nHead * Block.headSizeOf dModel nHead = dModel := Nat.mul_div_cancel' hd
  refine ⟨hcfg, ?_⟩
  simp only [MultiHeadAttention.forwardChecked]
  rw [dif_pos hcfg]

/-- Witness for the amended C3 at the divisible configuration n_head = 2,
    d_model = 4. -/
theorem mha_forward_divisible_witness :
    (2 : ℕ) ∣ 4 ∧
      MultiHeadAttention.forwardChecked cM24 (0 : Matrix (Fin 1) (Fin 4) ℝ) =
        some (MultiHeadAttention.forwardT (Nat.mul_div_cancel' (by decide)) cM24
          (0 : Matrix (Fin 1) (Fin 4) ℝ)) :=
  ⟨by decide, (mha_forward_divisible 1 2 4 (by decide) cM24 0).2⟩

/-- Claim C4 counterexample: with the notebook configuration (d_model = 512
    not divisible by n_head = 6), Block.__init__ raises nothing — it silently
    computes the truncated head_size = 512 // 6 = 85, whose six heads cover
    only 510 of the 512 features. -/
theorem block_init_silent_cex :
    ¬ n_head ∣ d_model ∧ Block.headSizeOf d_model n_head = 85 ∧
      n_head * Block.headSizeOf d_model n_head ≠ d_model := by
  refine ⟨by decide, rfl, by decide⟩

/-- Claim C4 (amended): no ConfigurationError exists and nothing is raised at
    construction.  Block.__init__ always succeeds, silently setting
    head_size = d_model // n_head (floor division); when n_head does not
    divide d_model the width mismatch surfaces only later, as a failure of
    the projection inside MultiHeadAttention.forward. -/
theorem mha_forward_nondivisible_none :
    ∀ (T nHead dModel : ℕ), ¬ nHead ∣ dModel →
      ∀ (m : MultiHeadAttention nHead dModel (Block.headSizeOf dModel nHead))
        (x : Matrix (Fin T) (Fin dModel) ℝ),
        MultiHeadAttention.forwardChecked m x = none := by
  intro T nHead dModel hnd m x
  simp only [MultiHeadAttention.forwardChecked]
  rw [dif_neg fun hEq => hnd ⟨Block.headSizeOf dModel nHead, hEq.symm⟩]

/-- Witness for the amended C4 at the non-divisible configuration n_head = 2,
    d_model = 5. -/
theorem mha_forward_nondivisible_none_witness :
    ¬ (2 : ℕ) ∣ 5 ∧
      MultiHeadAttention.forwardChecked cM25 (0 : Matrix (Fin 1) (Fin 5) ℝ) = none :=
  ⟨by decide, mha_forward_nondivisible_none 1 2 5 (by decide) cM25 0⟩

/-- Claim C5: for every seed and every k, generate performs exactly k loop
    iterations (the trace of model calls has length k), returns a sequence of
    exactly the seed length plus k whose leading tokens are the unchanged
    seed.  The quantification over every next-token function covers the
    absence of early stopping: whatever token is sampled — an end-of-sequence
    id included — the loop runs all k iterations. -/
theorem generate_length_exact :
    ∀ (s : ℕ) (next : List ℕ → ℕ) (k : ℕ) (idx : List ℕ),
      (TextGenerationModel.generate s next k idx).length = idx.length + k ∧
        (TextGenerationModel.generate s next k idx).take idx.length = idx ∧
        (generateTrace s next k idx).length = k := by
  intro s next k
  induction k with
  | zero =>
      intro idx
      refine ⟨by simp [TextGenerationModel.generate], ?_, by simp [generateTrace]⟩
      simp [TextGenerationModel.generate, List.take_length]
  | succ k ih =>
      intro idx
      have h1 := ih (idx ++ [next (idxCond s idx)])
      refine ⟨?_, ?_, ?_⟩
      · simp only [TextGenerationModel.generate]
        rw [h1.1, List.length_append, List.length_singleton]
        omega
      · obtain ⟨r, hr⟩ := generate_append s next (k + 1) idx
        rw [hr]
        exact List.take_left _ _
      · simp only [generateTrace, List.length_cons, h1.2.2]

/-- Claim C6: the input the generation loop passes to the model forward is
    idx_cond = idx[:, -seq_len:], never more than seq_len tokens: exactly the
    last seq_len tokens of the current sequence when it is longer than
    seq_len, and the whole sequence otherwise; and each loop iteration calls
    the model on exactly idxCond of the current sequence. -/
theorem generate_context_window :
    ∀ (seqLen : ℕ), 0 < seqLen →
      ∀ (cur : List ℕ),
        (idxCond seqLen cur).length ≤ seqLen ∧
          (seqLen ≤ cur.length →
            idxCond seqLen cur = cur.drop (cur.length - seqLen) ∧
              (idxCond seqLen cur).length = seqLen) ∧
          (cur.length ≤ seqLen → idxCond seqLen cur = cur) ∧
          (∀ (next : List ℕ → ℕ) (k : ℕ),
            TextGenerationModel.generate seqLen next (k + 1) cur =
              TextGenerationModel.generate seqLen next k
                (cur ++ [next (idxCond seqLen cur)])) := by
  intro s hs cur
  have hs0 : s ≠ 0 := hs.ne'
  refine ⟨?_, ?_, ?_, fun next k => rfl⟩
  · simp only [idxCond, if_neg hs0]
    rw [List.length_drop]
    omega
  · intro hlen
    refine ⟨by simp only [idxCond, if_neg hs0], ?_⟩
    simp only [idxCond, if_neg hs0]
    rw [List.length_drop]
    omega
  · intro hlen
    simp only [idxCond, if_neg hs0]
    rw [Nat.sub_eq_zero_of_le hlen, List.drop_zero]

/-- Witness for C6 at seq_len = 2 and a current sequence of length 3. -/
theorem generate_context_window_witness :
    0 < 2 ∧ (idxCond 2 [1, 2, 3]).length ≤ 2 :=
  ⟨by norm_num, (generate_context_window 2 (by norm_num) [1, 2, 3]).1⟩

/-- Claim C7: for a single-token input (T = 1) the normalized weight matrix
    is exactly the 1x1 matrix [[1]], and Head.forward at inference returns
    exactly the value projection of the token. -/
theorem head_single_token :
    ∀ (dModel headSize : ℕ) (h : Head dModel headSize) (x : Matrix (Fin 1) (Fin dModel) ℝ),
      (∀ i j : Fin 1, Head.wei h x i j = 1) ∧
        Head.forward h x = linearNoBias h.value x := by
  intro dModel headSize h x
  have hw : ∀ i j : Fin 1, Head.wei h x i j = 1 := by
    intro i j
    rw [Fin.eq_zero i, Fin.eq_zero j]
    simp only [Head.wei, maskedSoftmax, Matrix.of_apply]
    rw [if_pos (le_refl _)]
    have hfil : (Finset.univ.filter fun j' : Fin 1 => (j' : ℕ) ≤ ((0 : Fin 1) : ℕ)) =
        Finset.univ := by
      apply Finset.filter_true_of_mem
      intro a _
      exact Nat.le_of_lt_succ a.isLt
    rw [hfil, Fin.sum_univ_one]
    exact div_self (Real.exp_pos _).ne'
  refine ⟨hw, ?_⟩
  ext i j
  rw [Fin.eq_zero i]
  simp only [Head.forward, Matrix.mul_apply, Fin.sum_univ_one]
  rw [hw 0 0, one_mul]

/-- Claim C8: Block.forward is exactly the pre-norm residual composition
    x plus attention of ln1 of x, then plus feed-forward of ln2 of that. -/
theorem block_forward_prenorm_residual :
    ∀ (T dModel nHead headSize : ℕ) (hcfg : nHead * headSize = dModel)
      (b : Block dModel nHead headSize) (x : Matrix (Fin T) (Fin dModel) ℝ),
      Block.forward hcfg b x =
        x + MultiHeadAttention.forwardT hcfg b.sa (LayerNorm.forward b.ln1 x) +
          FeedFoward.forward b.ffwd
            (LayerNorm.forward b.ln2
              (x + MultiHeadAttention.forwardT hcfg b.sa (LayerNorm.forward b.ln1 x))) := by
  intro T dModel nHead headSize hcfg b x
  rfl

/-- Witness for C8 with a concrete zero-weight block at d_model = 2,
    n_head = 2, head_size = 1. -/
theorem block_forward_prenorm_residual_witness :
    2 * 1 = 2 ∧
      Block.forward (show 2 * 1 = 2 by norm_num) cB8 (0 : Matrix (Fin 1) (Fin 2) ℝ) =
        (0 : Matrix (Fin 1) (Fin 2) ℝ) +
            MultiHeadAttention.forwardT (show 2 * 1 = 2 by norm_num) cB8.sa
              (LayerNorm.forward cB8.ln1 0) +
          FeedFoward.forward cB8.ffwd
            (LayerNorm.forward cB8.ln2
              ((0 : Matrix (Fin 1) (Fin 2) ℝ) +
                MultiHeadAttention.forwardT (show 2 * 1 = 2 by norm_num) cB8.sa
                  (LayerNorm.forward cB8.ln1 0))) :=
  ⟨by norm_num, block_forward_prenorm_residual 1 2 2 1 (show 2 * 1 = 2 by norm_num) cB8 0⟩

/-- Claim C9: with the same seed sequence, the same iteration count, the same
    model-and-sampler step and random streams that agree on the k draws the
    loop consumes (identically seeded sources), the two generation runs
    return identical sequences. -/
theorem generate_deterministic :
    ∀ (seqLen : ℕ) (next : List ℕ → ℕ → ℕ) (k : ℕ) (idx : List ℕ)
      (rand1 rand2 : ℕ → ℕ),
      (∀ i, i < k → rand1 i = rand2 i) →
      generateRand seqLen next rand1 k idx = generateRand seqLen next rand2 k idx := by
  intro s next k
  induction k with
  | zero => intro idx r1 r2 hagree; rfl
  | succ k ih =>
      intro idx r1 r2 hagree
      simp only [generateRand]
      rw [hagree 0 (Nat.succ_pos k)]
      exact ih (idx ++ [next (idxCond s idx) (r2 0)]) (fun i => r1 (i + 1))
        (fun i => r2 (i + 1)) (fun i hi => hagree (i + 1) (Nat.succ_lt_succ hi))

/-- Witness for C9: two streams agreeing on their first two draws drive two
    iterations to the same output. -/
theorem generate_deterministic_witness :
    (∀ i, i < 2 → (fun n => n + 3) i = (fun n => if n < 2 then n + 3 else 0) i) ∧
      generateRand 2 (fun _ r => r) (fun n => n + 3) 2 [1] =
        generateRand 2 (fun _ r => r) (fun n => if n < 2 then n + 3 else 0) 2 [1] :=
  ⟨by decide, generate_deterministic 2 (fun _ r => r) 2 [1] (fun n => n + 3)
    (fun n => if n < 2 then n + 3 else 0) (by decide)⟩

/-- Claim C10: with targets absent, forward returns the (B, T, vocab) logits
    and loss None; with targets present, it returns the logits viewed as
    (B*T, vocab) together with the cross-entropy loss, flat row b*T + t being
    row t of batch element b. -/
theorem forward_targets_flatten :
    ∀ (vocabSize seqLen dModel nHead headSize nLayer B T : ℕ)
      (hcfg : nHead * headSize = dModel) (hT : T ≤ seqLen)
      (m : TextGenerationModel vocabSize seqLen dModel nHead headSize nLayer)
      (idx : Fin B → Fin T → Fin vocabSize),
      TextGenerationModel.forward hcfg m hT idx none =
          ForwardResult.inference (TextGenerationModel.logits hcfg m hT idx) ∧
        (∀ tg,
          TextGenerationModel.forward hcfg m hT idx (some tg) =
            ForwardResult.training (flat2 (TextGenerationModel.logits hcfg m hT idx))
              (crossEntropy (flat2 (TextGenerationModel.logits hcfg m hT idx))
                (flat2 tg))) ∧
        (∀ (b : Fin B) (t : Fin T) (hn : (b : ℕ) * T + (t : ℕ) < B * T),
          flat2 (TextGenerationModel.logits hcfg m hT idx) ⟨(b : ℕ) * T + (t : ℕ), hn⟩ =
            TextGenerationModel.logits hcfg m hT idx b t) := by
  intro vocabSize seqLen dModel nHead headSize nLayer B T hcfg hT m idx
  exact ⟨rfl, fun tg => rfl, fun b t hn => flat2_apply _ b t hn⟩

/-- Witness for C10 with a concrete zero-weight one-layer model. -/
theorem forward_targets_flatten_witness :
    2 * 1 = 2 ∧ (1 : ℕ) ≤ 1 ∧
      TextGenerationModel.forward (show 2 * 1 = 2 by norm_num) cModel
          (show (1 : ℕ) ≤ 1 by norm_num) cIdx none =
        ForwardResult.inference
          (TextGenerationModel.logits (show 2 * 1 = 2 by norm_num) cModel
            (show (1 : ℕ) ≤ 1 by norm_num) cIdx) :=
  ⟨by norm_num, by norm_num,
    (forward_targets_flatten 1 1 2 2 1 1 1 1 (show 2 * 1 = 2 by norm_num)
      (show (1 : ℕ) ≤ 1 by norm_num) cModel cIdx).1⟩

end Transformer
